import Mathlib

/-!
Verification development for `src/alphamantis/tas.py`, the Alphamentis Track
Aero System dashboard run-log parser.

Modelling conventions:
* a file is a `List Line`, each `Line` a `List Char` holding one line of the
  file without its trailing newline (Python `readline` keeps the newline; the
  regexes that end in `\n$` are modelled as requiring end-of-line);
* the regular expressions of the source are translated into deterministic
  character-level matchers; this is exact because in every pattern each
  repeated character class is disjoint from the character that follows it,
  so the regex engine never needs to backtrack (sensor ids are interpolated
  into the patterns literally; ids made of letters and digits, as produced
  by the settings section, contain no regex metacharacters);
* Python `float` values arising from `\d+\.\d+` captures and from the
  settings strings are modelled as exact rationals, `int` as `Nat`;
  `datetime.fromtimestamp` is modelled as the identity on the epoch-second
  rational (it is strictly monotone and injective on it);
* Python `round(x, 6)` (round-half-to-even) is modelled by `round6`;
* each generator is modelled by a total function returning the list of
  yielded records, together with a Boolean that is `true` when the Python
  generator raises `UnboundLocalError` (`yield result` with `result` never
  assigned); `Option` models expressions that can raise
  `KeyError`/`ValueError` before any record is produced.
-/

namespace Tas

abbrev Line := List Char

def str (s : String) : Line := s.data

/-- Character class `[A-Z0-9]` of the sensor-key patterns. -/
def capAlnum (c : Char) : Bool := ('A' ≤ c && c ≤ 'Z') || ('0' ≤ c && c ≤ '9')

/-- Character class `\d`. -/
def digitC (c : Char) : Bool := '0' ≤ c && c ≤ '9'

/-- Character class `[A-Z_]` of the rider-section label pattern. -/
def capUnder (c : Char) : Bool := ('A' ≤ c && c ≤ 'Z') || c = '_'

/-- Match a nonempty maximal run of characters satisfying `p` (regex `p+`
followed by a character outside the class). -/
def takeWhile1 (p : Char → Bool) (cs : List Char) : Option (List Char × List Char) :=
  match cs.takeWhile p with
  | [] => none
  | t => some (t, cs.dropWhile p)

/-- Match the literal `lit` at the front, returning the remainder. -/
def dropLit : List Char → List Char → Option (List Char)
  | [], cs => some cs
  | _ :: _, [] => none
  | l :: ls, c :: cs => if c = l then dropLit ls cs else none

/-- Whether `lit` is an initial segment of `cs` (an anchored `re.search`). -/
def startsLit (lit cs : List Char) : Bool := (dropLit lit cs).isSome

/-- Numeric value of a digit string, as Python `int`. -/
def ofDigits (ds : List Char) : ℕ :=
  ds.foldl (fun n c => 10 * n + (c.toNat - '0'.toNat)) 0

/-- Rational value of the capture `\d+\.\d+` (integer part, dot, fraction
digits), as Python `float` idealized to an exact rational. -/
def decVal (intPart fracPart : List Char) : ℚ :=
  (ofDigits intPart : ℚ) + (ofDigits fracPart : ℚ) / (10 : ℚ) ^ fracPart.length

/-- Match `\d+\.\d+` at the front, returning its rational value. -/
def decCap (cs : List Char) : Option (ℚ × List Char) :=
  (takeWhile1 digitC cs).bind fun (a, r1) =>
  (dropLit ['.'] r1).bind fun r2 =>
  (takeWhile1 digitC r2).map fun (b, r3) => (decVal a b, r3)

/-- Split a character list on a separator character, Python `str.split(sep)`:
the result is always nonempty and joins back with the separator. -/
def splitOnChar (sep : Char) : List Char → List (List Char)
  | [] => [[]]
  | c :: rest =>
    if c = sep then [] :: splitOnChar sep rest
    else
      match splitOnChar sep rest with
      | [] => [[c]]
      | p :: ps => (c :: p) :: ps

/-- Python `str.lower()` on the captured labels. -/
def lowerL (cs : List Char) : List Char := cs.map Char.toLower

/-- Python `round` to six decimal places: round half to even
(banker's rounding); exact on the rationals the program produces. -/
def roundHalfEven (x : ℚ) : ℤ :=
  if x - ⌊x⌋ = 1 / 2 then (if ⌊x⌋ % 2 = 0 then ⌊x⌋ else ⌊x⌋ + 1) else round x

def round6 (x : ℚ) : ℚ := (roundHalfEven (x * 1000000) : ℚ) / 1000000

/-! ### Line matchers (the regexes of `tas.py`) -/

/-- Captures of the speed/CG announcement pattern
`^[A-Z0-9]+_{sid}\t(?P<timestamp>\d+\.\d+)\tS\t0\t(?P<timer>\d+)\t(?P<count>\d+)\t\t`
(the timestamp group is captured by the source but never used). -/
structure SpeedAnn where
  timer : List Char
  count : List Char
deriving DecidableEq, Repr

def matchSpeedAnn (sid : Line) (l : Line) : Option SpeedAnn :=
  (takeWhile1 capAlnum l).bind fun (_, r1) =>
  (dropLit ('_' :: sid ++ ['\t']) r1).bind fun r2 =>
  (takeWhile1 digitC r2).bind fun (_, r3) =>
  (dropLit ['.'] r3).bind fun r4 =>
  (takeWhile1 digitC r4).bind fun (_, r5) =>
  (dropLit ['\t', 'S', '\t', '0', '\t'] r5).bind fun r6 =>
  (takeWhile1 digitC r6).bind fun (t, r7) =>
  (dropLit ['\t'] r7).bind fun r8 =>
  (takeWhile1 digitC r8).bind fun (c, r9) =>
  (dropLit ['\t', '\t'] r9).map fun _ => SpeedAnn.mk t c

/-- Captures of the speed broadcast pattern
`^SPEED\t[A-Z0-9]+_{sid}\t(?P<timestamp>\d+\.\d+)\t(?P<speed>\d+\.\d+)\n$`
as (timestamp, speed), both converted by `float`. -/
def matchSpeedVal (sid : Line) (l : Line) : Option (ℚ × ℚ) :=
  (dropLit (str "SPEED\t") l).bind fun r0 =>
  (takeWhile1 capAlnum r0).bind fun (_, r1) =>
  (dropLit ('_' :: sid ++ ['\t']) r1).bind fun r2 =>
  (decCap r2).bind fun (ts, r3) =>
  (dropLit ['\t'] r3).bind fun r4 =>
  (decCap r4).bind fun (sp, r5) =>
  if r5 = [] then some (ts, sp) else none

/-- Captures of the power announcement pattern
`^[A-Z0-9]+_{sid}\t(?P<timestamp>\d+\.\d+)\tS\t(?P<event_count>\d+)\t(?P<elapsed_time>\d+)\t(?P<torque_ticks>\d+)\t(?P<slope>\d+)\t`. -/
structure PowerAnn where
  eventCount : List Char
  elapsed : List Char
deriving DecidableEq, Repr

def matchPowerAnn (sid : Line) (l : Line) : Option PowerAnn :=
  (takeWhile1 capAlnum l).bind fun (_, r1) =>
  (dropLit ('_' :: sid ++ ['\t']) r1).bind fun r2 =>
  (takeWhile1 digitC r2).bind fun (_, r3) =>
  (dropLit ['.'] r3).bind fun r4 =>
  (takeWhile1 digitC r4).bind fun (_, r5) =>
  (dropLit ['\t', 'S', '\t'] r5).bind fun r6 =>
  (takeWhile1 digitC r6).bind fun (ec, r7) =>
  (dropLit ['\t'] r7).bind fun r8 =>
  (takeWhile1 digitC r8).bind fun (et, r9) =>
  (dropLit ['\t'] r9).bind fun r10 =>
  (takeWhile1 digitC r10).bind fun (_, r11) =>
  (dropLit ['\t'] r11).bind fun r12 =>
  (takeWhile1 digitC r12).bind fun (_, r13) =>
  (dropLit ['\t'] r13).map fun _ => PowerAnn.mk ec et

/-- Captures of the power broadcast pattern
`^POWER\t[A-Z0-9]+_{sid}\t(?P<timestamp>\d+\.\d+)\t(?P<power>\d+\.\d+)\n$`. -/
def matchPowerVal (sid : Line) (l : Line) : Option (ℚ × ℚ) :=
  (dropLit (str "POWER\t") l).bind fun r0 =>
  (takeWhile1 capAlnum r0).bind fun (_, r1) =>
  (dropLit ('_' :: sid ++ ['\t']) r1).bind fun r2 =>
  (decCap r2).bind fun (ts, r3) =>
  (dropLit ['\t'] r3).bind fun r4 =>
  (decCap r4).bind fun (pw, r5) =>
  if r5 = [] then some (ts, pw) else none

/-- Captures of the CG broadcast pattern
`^CG_SPEED_[A-Z0-9]+_{sid}\t(?P<timestamp>\d+\.\d+)\t(?P<speed>\d+\.\d+)\n$`. -/
def matchCgVal (sid : Line) (l : Line) : Option (ℚ × ℚ) :=
  (dropLit (str "CG_SPEED_") l).bind fun r0 =>
  (takeWhile1 capAlnum r0).bind fun (_, r1) =>
  (dropLit ('_' :: sid ++ ['\t']) r1).bind fun r2 =>
  (decCap r2).bind fun (ts, r3) =>
  (dropLit ['\t'] r3).bind fun r4 =>
  (decCap r4).bind fun (sp, r5) =>
  if r5 = [] then some (ts, sp) else none

/-! ### Record types -/

/-- `SpeedSensorRecord` namedtuple of the source. -/
structure SpeedSensorRecord where
  timestamp : ℚ
  value : ℚ
  elapsed_time : ℚ
  count : ℕ
  circumference : ℚ
deriving DecidableEq, Repr

/-- `PowerSensorRecord` namedtuple of the source. -/
structure PowerSensorRecord where
  timestamp : ℚ
  value : ℚ
  event_count : ℕ
  elapsed_time : ℚ
deriving DecidableEq, Repr

/-! ### The generator loops

`DashboardRunLog.speed` and `DashboardRunLog.power` share one loop shape:
an outer loop seeking an acceptable announcement line, an inner loop seeking
the first broadcast line (assigning the function-local `result`), a second
inner loop consuming lines up to and including the next line matching the
raw announcement pattern, then `yield result`.  `result` is never reset:
at a `yield` it is the record of the current interval when the first inner
loop found a broadcast line, the record of an earlier interval when it did
not (the inner loop ended at end-of-file), and unassigned when no interval
ever completed, in which case `yield result` raises `UnboundLocalError`
(the `true` flag below). -/

inductive Phase (α : Type) where
  | seekAnnounce : Phase α
  | seekValue : α → Phase α
  | seekNext : Phase α

/-- Generic first-match scanner: `annRaw` is the raw announcement-pattern
test (used by the skip loop), `annOk` the announcement match combined with
the zero test applied before entering the value search, `val` the broadcast
match, `mk` the record constructor. -/
def scanFirst {α γ : Type} (annRaw : Tas.Line → Bool) (annOk : Tas.Line → Option α)
    (val : Tas.Line → Option (ℚ × ℚ)) (mk : α → ℚ × ℚ → γ) :
    Phase α → Option γ → List Tas.Line → List γ × Bool
  | ph, res, [] =>
    match ph, res with
    | .seekAnnounce, _ => ([], false)
    | _, some r => ([r], false)
    | _, none => ([], true)
  | .seekAnnounce, res, l :: ls =>
    match annOk l with
    | none => scanFirst annRaw annOk val mk .seekAnnounce res ls
    | some a => scanFirst annRaw annOk val mk (.seekValue a) res ls
  | .seekValue a, res, l :: ls =>
    match val l with
    | none => scanFirst annRaw annOk val mk (.seekValue a) res ls
    | some b => scanFirst annRaw annOk val mk .seekNext (some (mk a b)) ls
  | .seekNext, res, l :: ls =>
    if annRaw l then
      match res with
      | some r =>
        let p := scanFirst annRaw annOk val mk .seekAnnounce res ls
        (r :: p.1, p.2)
      | none => ([], true)
    else scanFirst annRaw annOk val mk .seekNext res ls

/-- Acceptable speed announcement: pattern match and `meas_time != 0`
(`int(m.group('timer'))` compared to the number zero). -/
def speedAnnOk (sid : Tas.Line) (l : Tas.Line) : Option SpeedAnn :=
  (Tas.matchSpeedAnn sid l).bind fun a =>
    if Tas.ofDigits a.timer = 0 then none else some a

/-- Record built by `DashboardRunLog.speed` at a broadcast line. -/
def mkSpeedRec (circ : ℚ) (a : SpeedAnn) (b : ℚ × ℚ) : SpeedSensorRecord :=
  { timestamp := b.1
    value := b.2
    elapsed_time := Tas.round6 ((Tas.ofDigits a.timer : ℚ) / 1024)
    count := Tas.ofDigits a.count
    circumference := circ }

/-- The loop of `DashboardRunLog.speed` with its state exposed. -/
def speedScan (sid : Tas.Line) (circ : ℚ) :
    Phase SpeedAnn → Option SpeedSensorRecord → List Tas.Line →
    List SpeedSensorRecord × Bool :=
  scanFirst (fun l => (Tas.matchSpeedAnn sid l).isSome) (speedAnnOk sid)
    (Tas.matchSpeedVal sid) (mkSpeedRec circ)

/-- The `DashboardRunLog.speed` generator, given the resolved sensor id and
circumference: list of yielded records, plus the `UnboundLocalError` flag. -/
def speedRun (sid : Tas.Line) (circ : ℚ) (file : List Tas.Line) :
    List SpeedSensorRecord × Bool :=
  speedScan sid circ .seekAnnounce none file

/-- Acceptable power announcement: pattern match and the *string* test
`m.group('event_count') == '0'` rejecting only the literal digit `0`. -/
def powerAnnOk (sid : Tas.Line) (l : Tas.Line) : Option PowerAnn :=
  (Tas.matchPowerAnn sid l).bind fun a =>
    if a.eventCount = ['0'] then none else some a

/-- Record built by `DashboardRunLog.power` at a broadcast line
(`elapsed_time = int(...) * 0.0005`, rounded to six decimals). -/
def mkPowerRec (a : PowerAnn) (b : ℚ × ℚ) : PowerSensorRecord :=
  { timestamp := b.1
    value := b.2
    event_count := Tas.ofDigits a.eventCount
    elapsed_time := Tas.round6 ((Tas.ofDigits a.elapsed : ℚ) * (5 / 10000)) }

/-- The loop of `DashboardRunLog.power` with its state exposed. -/
def powerScan (sid : Tas.Line) :
    Phase PowerAnn → Option PowerSensorRecord → List Tas.Line →
    List PowerSensorRecord × Bool :=
  scanFirst (fun l => (Tas.matchPowerAnn sid l).isSome) (powerAnnOk sid)
    (Tas.matchPowerVal sid) mkPowerRec

/-- The `DashboardRunLog.power` generator, given the resolved sensor id. -/
def powerRun (sid : Tas.Line) (file : List Tas.Line) :
    List PowerSensorRecord × Bool :=
  powerScan sid .seekAnnounce none file

/-- Phase of the `cg_speed` loop: seeking an announcement, or inside an
interval accumulating broadcast values (`result` starting at `None`). -/
inductive CgPhase (α γ : Type) where
  | seekAnnounce : CgPhase α γ
  | accum : α → Option γ → CgPhase α γ

/-- Generic last-match scanner of `DashboardRunLog.cg_speed`: broadcast
matches overwrite the working record; a line matching the raw announcement
pattern ends the interval only once a record exists, and that line is
consumed; at end-of-file the working record is yielded if it exists,
otherwise the generator ends with no further output. -/
def scanLast {α γ : Type} (annRaw : Tas.Line → Bool) (annOk : Tas.Line → Option α)
    (val : Tas.Line → Option (ℚ × ℚ)) (mk : α → ℚ × ℚ → γ) :
    CgPhase α γ → List Tas.Line → List γ
  | .seekAnnounce, [] => []
  | .seekAnnounce, l :: ls =>
    match annOk l with
    | none => scanLast annRaw annOk val mk .seekAnnounce ls
    | some a => scanLast annRaw annOk val mk (.accum a none) ls
  | .accum _ res, [] =>
    match res with
    | none => []
    | some r => [r]
  | .accum a res, l :: ls =>
    match res with
    | some r =>
      if annRaw l then r :: scanLast annRaw annOk val mk .seekAnnounce ls
      else
        match val l with
        | none => scanLast annRaw annOk val mk (.accum a res) ls
        | some b => scanLast annRaw annOk val mk (.accum a (some (mk a b))) ls
    | none =>
      match val l with
      | none => scanLast annRaw annOk val mk (.accum a res) ls
      | some b => scanLast annRaw annOk val mk (.accum a (some (mk a b))) ls

/-- The loop of `DashboardRunLog.cg_speed` with its state exposed. -/
def cgScan (sid : Tas.Line) (circ : ℚ) :
    CgPhase SpeedAnn SpeedSensorRecord → List Tas.Line → List SpeedSensorRecord :=
  scanLast (fun l => (Tas.matchSpeedAnn sid l).isSome) (speedAnnOk sid)
    (Tas.matchCgVal sid) (mkSpeedRec circ)

/-- The `DashboardRunLog.cg_speed` generator, given the resolved sensor id
and circumference (it reuses the speed announcement pattern and zero test,
and builds `SpeedSensorRecord`s from `CG_SPEED` broadcast lines). -/
def cgRun (sid : Tas.Line) (circ : ℚ) (file : List Tas.Line) :
    List SpeedSensorRecord :=
  cgScan sid circ .seekAnnounce file

/-! ### The settings property

`DashboardRunLog.settings` scans for the `Time and Date` section, collects
its labelled values, then scans for the `Rider and Device Data` section and
collects its labelled values; lines not matching the expected shapes are
skipped, and reaching end-of-file in any of the four loops simply ends that
loop, so the function always returns a mapping and never raises. -/

/-- A settings value: a plain string, or a `(value, param1, param2)`
tuple when the optional parameter group matched. -/
inductive SettingVal where
  | scalar : Tas.Line → SettingVal
  | triple : Tas.Line → Tas.Line → Tas.Line → SettingVal
deriving DecidableEq, Repr

/-- The settings dict, as an association list; insertion prepends, lookup
takes the first hit, which models dict overwrite semantics. -/
abbrev Settings := List (Tas.Line × SettingVal)

/-- Match of `^#\t\t(?P<label>Start Date|Start Time|Run Number):?\t(?P<value>[^\t]+)\n$`:
lowered label, value. -/
def kvTime (l : Tas.Line) : Option (Tas.Line × Tas.Line) :=
  (dropLit (str "#\t\t") l).bind fun r0 =>
  (match dropLit (str "Start Date") r0 with
   | some r => some (str "Start Date", r)
   | none =>
     match dropLit (str "Start Time") r0 with
     | some r => some (str "Start Time", r)
     | none => (dropLit (str "Run Number") r0).map fun r => (str "Run Number", r)).bind
  fun (lab, r1) =>
  (match r1 with
   | ':' :: r2 => dropLit ['\t'] r2
   | _ => dropLit ['\t'] r1).bind
  fun rest =>
  if rest ≠ [] ∧ '\t' ∉ rest then some (lowerL lab, rest) else none

/-- The tab-separated fields after the label: the pattern
`(?P<value>[^\t]+)(?:\t(?P<param1>[^\t]+)\t(?P<param2>[^\t]+))?\n$` matches a
single nonempty tab-free field, or exactly three of them. -/
def classifyParts : List (List Char) → Option SettingVal
  | [v] => if v ≠ [] then some (.scalar v) else none
  | [v, p1, p2] =>
    if v ≠ [] ∧ p1 ≠ [] ∧ p2 ≠ [] then some (.triple v p1 p2) else none
  | _ => none

/-- Match of `^#\t\t(?P<label>[A-Z_]+)\t(?P<value>[^\t]+)(?:\t(?P<param1>[^\t]+)\t(?P<param2>[^\t]+))?\n$`:
lowered label, and a scalar or triple value depending on the optional group. -/
def kvRider (l : Tas.Line) : Option (Tas.Line × SettingVal) :=
  (dropLit (str "#\t\t") l).bind fun r0 =>
  (takeWhile1 capUnder r0).bind fun (lab, r1) =>
  (dropLit ['\t'] r1).bind fun rest =>
  (classifyParts (splitOnChar '\t' rest)).map fun v => (lowerL lab, v)

/-- Phase of the settings scan: the four successive `while` loops. -/
inductive SetPhase where
  | seekTime | inTime | seekRider | inRider

/-- The four loops of `DashboardRunLog.settings`. -/
def settingsRun : SetPhase → Settings → List Tas.Line → Settings
  | _, d, [] => d
  | .seekTime, d, l :: ls =>
    if startsLit (str "#\tTime and Date") l then settingsRun .inTime d ls
    else settingsRun .seekTime d ls
  | .inTime, d, l :: ls =>
    if startsLit (str "###") l then settingsRun .seekRider d ls
    else
      match kvTime l with
      | some (k, v) => settingsRun .inTime ((k, SettingVal.scalar v) :: d) ls
      | none => settingsRun .inTime d ls
  | .seekRider, d, l :: ls =>
    if startsLit (str "#\tRider and Device Data") l then settingsRun .inRider d ls
    else settingsRun .seekRider d ls
  | .inRider, d, l :: ls =>
    if startsLit (str "###") l then d
    else
      match kvRider l with
      | some (k, v) => settingsRun .inRider ((k, v) :: d) ls
      | none => settingsRun .inRider d ls

/-- The `settings` property: a total function of the file. -/
def settingsOf (file : List Tas.Line) : Settings :=
  settingsRun .seekTime [] file

/-! ### Channel resolution and the full pipelines -/

/-- Python indexing `v[i]` on a settings value: tuple component for a
triple, single character for a scalar string (`IndexError` is `none`). -/
def valIndex : SettingVal → ℕ → Option Tas.Line
  | .triple a b c, i => [a, b, c].get? i
  | .scalar s, i => (s.get? i).map fun ch => [ch]

/-- Python `int()` on the digit strings the settings hold (`ValueError`
is `none`). -/
def parseNat? (cs : Tas.Line) : Option ℕ :=
  if cs ≠ [] ∧ cs.all digitC then some (ofDigits cs) else none

/-- Python `float()` on the decimal strings the settings hold, modelled for
the forms `digits` and `digits.digits` (`ValueError` is `none`). -/
def parseDec? (cs : Tas.Line) : Option ℚ :=
  match splitOnChar '.' cs with
  | [a] => if a ≠ [] ∧ a.all digitC then some ((ofDigits a : ℚ)) else none
  | [a, b] =>
    if a ≠ [] ∧ a.all digitC ∧ b ≠ [] ∧ b.all digitC then some (decVal a b) else none
  | _ => none

/-- `_, sensor_id = settings[key][0].split('_')` plus `settings[key][1]`:
the resolved sensor id and the raw calibration string of a channel. -/
def channelOf (file : List Tas.Line) (key : Tas.Line) : Option (Tas.Line × Tas.Line) :=
  ((settingsOf file).lookup key).bind fun v =>
  (valIndex v 0).bind fun s =>
  match splitOnChar '_' s with
  | [_, sid] => (valIndex v 1).map fun c => (sid, c)
  | _ => none

/-- The whole `speed()` pipeline: resolve the channel from the settings,
parse the circumference, then run the generator (`none` models the
exceptions raised before any record is produced). -/
def speedPipeline (file : List Tas.Line) : Option (List SpeedSensorRecord × Bool) :=
  (channelOf file (str "speed")).bind fun (sid, cS) =>
  (parseDec? cS).map fun circ =>
  speedRun sid circ file

/-- The whole `cg_speed()` pipeline (it resolves the same `speed` channel). -/
def cgPipeline (file : List Tas.Line) : Option (List SpeedSensorRecord) :=
  (channelOf file (str "speed")).bind fun (sid, cS) =>
  (parseDec? cS).map fun circ =>
  cgRun sid circ file

/-- The whole `power()` pipeline: the offset `int(settings['power'][1])` is
parsed — a parse failure raises — and then never used. -/
def powerPipeline (file : List Tas.Line) : Option (List PowerSensorRecord × Bool) :=
  (channelOf file (str "power")).bind fun (sid, oS) =>
  (parseNat? oS).map fun _offset =>
  powerRun sid file

/-! ### The CLI merge of `main` -/

/-- A row of the merged CLI output: a speed or a power record. -/
inductive MainRecord where
  | speed : SpeedSensorRecord → MainRecord
  | power : PowerSensorRecord → MainRecord
deriving DecidableEq, Repr

def MainRecord.timestamp : MainRecord → ℚ
  | .speed r => r.timestamp
  | .power r => r.timestamp

/-- `list(speed) + list(power)` of `main` (crashing generators crash
`main`, hence `none`). -/
def mainUnsorted (file : List Tas.Line) : Option (List MainRecord) :=
  (speedPipeline file).bind fun (ss, es) =>
  (powerPipeline file).bind fun (ps, ep) =>
  if es || ep then none
  else some (ss.map MainRecord.speed ++ ps.map MainRecord.power)

/-- The timestamp order used by `sorted(records, key=lambda x: x.timestamp)`. -/
def tsLE (a b : MainRecord) : Prop := a.timestamp ≤ b.timestamp

instance : DecidableRel tsLE := fun x y =>
  inferInstanceAs (Decidable (x.timestamp ≤ y.timestamp))

/-- `sorted(records, key=lambda x: x.timestamp)` of `main`: a stable sort
by timestamp, modelled by insertion sort (which is stable). -/
def mainRecords (file : List Tas.Line) : Option (List MainRecord) :=
  (mainUnsorted file).map (List.insertionSort tsLE)

/-! ### Helper definitions used by the claims -/

/-- The `timer` values (after `int` conversion) of all lines of a file that
match the speed announcement pattern. -/
def speedTimers (sid : Tas.Line) (file : List Tas.Line) : List ℕ :=
  file.filterMap fun l => (Tas.matchSpeedAnn sid l).map fun a => Tas.ofDigits a.timer

/-- The raw `elapsed_time` values (after `int` conversion) of all lines of
a file that match the power announcement pattern. -/
def powerElapsedRaws (sid : Tas.Line) (file : List Tas.Line) : List ℕ :=
  file.filterMap fun l => (Tas.matchPowerAnn sid l).map fun a => Tas.ofDigits a.elapsed

/-- A line that matches neither section marker, nor the section terminator,
nor either key/value shape of the settings scan. -/
def junkLine (l : Tas.Line) : Prop :=
  startsLit (str "#\tTime and Date") l = false ∧
  startsLit (str "#\tRider and Device Data") l = false ∧
  startsLit (str "###") l = false ∧
  kvTime l = none ∧ kvRider l = none

/-- A rider-section line declaring the POWER channel with offset string `o`. -/
def powerSettingLine (v o p2 : Tas.Line) : Tas.Line :=
  str "#\t\tPOWER\t" ++ (v ++ '\t' :: (o ++ '\t' :: p2))

/-- Settings values equal up to replacing offset `o1` by `o2` in a triple. -/
def ValRel (o1 o2 : Tas.Line) (x y : SettingVal) : Prop :=
  x = y ∨ ∃ v p2, x = .triple v o1 p2 ∧ y = .triple v o2 p2

/-- Settings mappings pointwise equal up to the power offset. -/
def SettingsRel (o1 o2 : Tas.Line) : Settings → Settings → Prop :=
  List.Forall₂ fun e1 e2 => e1.1 = e2.1 ∧ ValRel o1 o2 e1.2 e2.2

/-- Lines indistinguishable to the settings scan except that their rider
key/value payloads may differ as `ValRel` allows. -/
def LineRel (o1 o2 : Tas.Line) (l1 l2 : Tas.Line) : Prop :=
  startsLit (str "#\tTime and Date") l1 = startsLit (str "#\tTime and Date") l2 ∧
  startsLit (str "#\tRider and Device Data") l1
    = startsLit (str "#\tRider and Device Data") l2 ∧
  startsLit (str "###") l1 = startsLit (str "###") l2 ∧
  kvTime l1 = kvTime l2 ∧
  ((kvRider l1 = none ∧ kvRider l2 = none) ∨
    (∃ k x y, kvRider l1 = some (k, x) ∧ kvRider l2 = some (k, y) ∧ ValRel o1 o2 x y))

/-- Lines indistinguishable to the power scanner. -/
def PowerScanEq (sid : Tas.Line) (l1 l2 : Tas.Line) : Prop :=
  Tas.matchPowerAnn sid l1 = Tas.matchPowerAnn sid l2 ∧
  Tas.matchPowerVal sid l1 = Tas.matchPowerVal sid l2

instance : IsTrans MainRecord tsLE :=
  ⟨fun _ _ _ h1 h2 => le_trans h1 h2⟩

instance : IsTotal MainRecord tsLE :=
  ⟨fun x y => le_total x.timestamp y.timestamp⟩

/-! ### Concrete example lines and records -/

def exSid : Tas.Line := str "77"

def exAnnA : Tas.Line := str "SPD_77\t100.0\tS\t0\t1024\t1\t\t"

def exValA : Tas.Line := str "SPEED\tSPD_77\t9.5\t3.25"

def exAnnB : Tas.Line := str "SPD_77\t101.0\tS\t0\t2048\t2\t\t"

def exValB : Tas.Line := str "SPEED\tSPD_77\t10.5\t4.25"

def exAnnC : Tas.Line := str "SPD_77\t102.0\tS\t0\t4096\t3\t\t"

def exValLate : Tas.Line := str "SPEED\tSPD_77\t5.5\t4.25"

def exRecA : SpeedSensorRecord := ⟨19 / 2, 13 / 4, 1, 1, 2⟩

def exCgA : Tas.Line := str "CG_SPEED_SPD_77\t9.5\t3.25"

def exCgB : Tas.Line := str "CG_SPEED_SPD_77\t10.5\t4.25"

def exCgC : Tas.Line := str "CG_SPEED_SPD_77\t11.5\t5.25"

def exRecCgA : SpeedSensorRecord := ⟨19 / 2, 13 / 4, 1, 1, 2⟩

def exRecCgB : SpeedSensorRecord := ⟨21 / 2, 17 / 4, 1, 1, 2⟩

def exRecCgC : SpeedSensorRecord := ⟨23 / 2, 21 / 4, 4, 3, 2⟩

def exPsid : Tas.Line := str "88"

def exPAnn : Tas.Line := str "PWR_88\t100.0\tS\t5\t2000\t7\t8\t"

def exPAnn00 : Tas.Line := str "PWR_88\t100.0\tS\t00\t2000\t7\t8\t"

def exPVal : Tas.Line := str "POWER\tPWR_88\t9.5\t250.0"

def exPRec : PowerSensorRecord := ⟨19 / 2, 250, 5, 1⟩

def exPRec00 : PowerSensorRecord := ⟨19 / 2, 250, 0, 1⟩

/-- Header lines up to (not including) the POWER settings line. -/
def exHdrPre : List Tas.Line :=
  [str "#\tTime and Date", str "###", str "#\tRider and Device Data",
   str "#\t\tSPEED\tSPD_77\t2.0\t0"]

/-- A complete settings header declaring both channels. -/
def exHdr : List Tas.Line :=
  exHdrPre ++ [str "#\t\tPOWER\tPWR_88\t512\t0", str "###"]

/-- A complete file with one speed and one power interval. -/
def exMainFile : List Tas.Line := exHdr ++ [exAnnA, exValA, exPAnn, exPVal]

/-- The file of the C8 end-to-end scenario. -/
def exC8File : List Tas.Line :=
  [str "#\tTime and Date",
   str "###",
   str "#\tRider and Device Data",
   str "#\t\tSPEED\tSPD_12345\t2.105\t0",
   str "###",
   str "SPD_12345\t1700000000.0\tS\t0\t2048\t50\t\t",
   str "SPEED\tSPD_12345\t1700000000.5\t9.876500",
   str "SPEED\tSPD_12345\t1700000000.5\t9.876500",
   str "SPEED\tSPD_12345\t1700000000.5\t9.876500",
   str "SPD_12345\t1700000001.0\tS\t0\t1024\t10\t\t"]

/-- The single record of the C8 scenario. -/
def exC8Rec : SpeedSensorRecord := ⟨3400000001 / 2, 98765 / 10000, 2, 50, 421 / 200⟩

/-! ### Step lemmas for the scanners -/

section ScanLemmas

variable {α γ : Type} {annRaw : Tas.Line → Bool} {annOk : Tas.Line → Option α}
variable {val : Tas.Line → Option (ℚ × ℚ)} {mk : α → ℚ × ℚ → γ}
variable {res : Option γ} {l : Tas.Line} {ls : List Tas.Line}

theorem scanFirst_announce_skip (h : annOk l = none) :
    scanFirst annRaw annOk val mk .seekAnnounce res (l :: ls)
      = scanFirst annRaw annOk val mk .seekAnnounce res ls := by
  simp only [scanFirst, h]

theorem scanFirst_announce_hit {a : α} (h : annOk l = some a) :
    scanFirst annRaw annOk val mk .seekAnnounce res (l :: ls)
      = scanFirst annRaw annOk val mk (.seekValue a) res ls := by
  simp only [scanFirst, h]

theorem scanFirst_value_skip {a : α} (h : val l = none) :
    scanFirst annRaw annOk val mk (.seekValue a) res (l :: ls)
      = scanFirst annRaw annOk val mk (.seekValue a) res ls := by
  simp only [scanFirst, h]

theorem scanFirst_value_hit {a : α} {b : ℚ × ℚ} (h : val l = some b) :
    scanFirst annRaw annOk val mk (.seekValue a) res (l :: ls)
      = scanFirst annRaw annOk val mk .seekNext (some (mk a b)) ls := by
  simp only [scanFirst, h]

theorem scanFirst_next_skip (h : annRaw l = false) :
    scanFirst annRaw annOk val mk .seekNext res (l :: ls)
      = scanFirst annRaw annOk val mk .seekNext res ls := by
  simp only [scanFirst, h]
  rfl

theorem scanFirst_next_hit {r : γ} (h : annRaw l = true) :
    scanFirst annRaw annOk val mk .seekNext (some r) (l :: ls)
      = (r :: (scanFirst annRaw annOk val mk .seekAnnounce (some r) ls).1,
         (scanFirst annRaw annOk val mk .seekAnnounce (some r) ls).2) := by
  simp only [scanFirst, h]
  rfl

theorem scanFirst_nil_announce :
    scanFirst annRaw annOk val mk .seekAnnounce res [] = ([], false) := by
  cases res <;> rfl

theorem scanFirst_nil_some {ph : Phase α} {r : γ} (h : ph ≠ .seekAnnounce) :
    scanFirst annRaw annOk val mk ph (some r) [] = ([r], false) := by
  cases ph with
  | seekAnnounce => exact absurd rfl h
  | seekValue a => rfl
  | seekNext => rfl

theorem scanFirst_nil_none {ph : Phase α} (h : ph ≠ .seekAnnounce) :
    scanFirst annRaw annOk val mk ph none [] = ([], true) := by
  cases ph with
  | seekAnnounce => exact absurd rfl h
  | seekValue a => rfl
  | seekNext => rfl

/-- One full interval of a first-match scanner: an accepted announcement,
skipped lines bearing no broadcast match, the first broadcast line, skipped
lines bearing no announcement match, and a line matching the raw
announcement pattern.  Exactly one record is produced for the interval, the
terminating announcement line is consumed, and scanning resumes after it. -/
theorem scanFirst_interval {a : α} {b : ℚ × ℚ} {A V A' : Tas.Line}
    {vs ws rest : List Tas.Line}
    (hA : annOk A = some a)
    (hvs : ∀ l ∈ vs, val l = none)
    (hV : val V = some b)
    (hws : ∀ l ∈ ws, annRaw l = false)
    (hA' : annRaw A' = true) :
    scanFirst annRaw annOk val mk .seekAnnounce res (A :: (vs ++ V :: (ws ++ A' :: rest)))
      = ((mk a b) :: (scanFirst annRaw annOk val mk .seekAnnounce (some (mk a b)) rest).1,
         (scanFirst annRaw annOk val mk .seekAnnounce (some (mk a b)) rest).2) := by
  rw [scanFirst_announce_hit hA]
  induction vs with
  | nil =>
    rw [List.nil_append, scanFirst_value_hit hV]
    induction ws with
    | nil => rw [List.nil_append, scanFirst_next_hit hA']
    | cons w ws ihw =>
      rw [List.cons_append, scanFirst_next_skip (hws w (by simp))]
      exact ihw fun l hl => hws l (by simp [hl])
  | cons v' vs ihv =>
    rw [List.cons_append, scanFirst_value_skip (hvs v' (by simp))]
    exact ihv fun l hl => hvs l (by simp [hl])

/-- Invariant of the first-match scanner: every emitted record either was
already the working `result`, or is built by `mk` from an announcement
accepted in the remaining lines (possibly the one held in the phase). -/
theorem scanFirst_mem (P : γ → Prop) :
    ∀ (ls : List Tas.Line) (ph : Phase α) (res : Option γ),
    (∀ r, res = some r → P r) →
    (∀ a, ph = .seekValue a → ∀ b, P (mk a b)) →
    (∀ l ∈ ls, ∀ a, annOk l = some a → ∀ b, P (mk a b)) →
    ∀ r ∈ (scanFirst annRaw annOk val mk ph res ls).1, P r := by
  intro ls
  induction ls with
  | nil =>
    intro ph res hres _ _ r hr
    cases ph with
    | seekAnnounce => rw [scanFirst_nil_announce] at hr; simp at hr
    | seekValue a =>
      cases res with
      | none => rw [scanFirst_nil_none (by simp)] at hr; simp at hr
      | some r0 =>
        rw [scanFirst_nil_some (by simp)] at hr
        simp at hr
        exact hr ▸ hres r0 rfl
    | seekNext =>
      cases res with
      | none => rw [scanFirst_nil_none (by simp)] at hr; simp at hr
      | some r0 =>
        rw [scanFirst_nil_some (by simp)] at hr
        simp at hr
        exact hr ▸ hres r0 rfl
  | cons l ls ih =>
    intro ph res hres hph hls r hr
    have hls' : ∀ l' ∈ ls, ∀ a, annOk l' = some a → ∀ b, P (mk a b) :=
      fun l' hl' => hls l' (by simp [hl'])
    cases ph with
    | seekAnnounce =>
      cases hok : annOk l with
      | none =>
        rw [scanFirst_announce_skip hok] at hr
        exact ih .seekAnnounce res hres (by simp) hls' r hr
      | some a =>
        rw [scanFirst_announce_hit hok] at hr
        refine ih (.seekValue a) res hres ?_ hls' r hr
        intro a' ha' b
        cases ha'
        exact hls l (by simp) a hok b
    | seekValue a =>
      cases hv : val l with
      | none =>
        rw [scanFirst_value_skip hv] at hr
        exact ih (.seekValue a) res hres hph hls' r hr
      | some b =>
        rw [scanFirst_value_hit hv] at hr
        refine ih .seekNext (some (mk a b)) ?_ (by simp) hls' r hr
        intro r0 hr0
        cases hr0
        exact hph a rfl b
    | seekNext =>
      cases hraw : annRaw l with
      | false =>
        rw [scanFirst_next_skip hraw] at hr
        exact ih .seekNext res hres (by simp) hls' r hr
      | true =>
        cases res with
        | none =>
          simp only [scanFirst, hraw] at hr
          simp at hr
        | some r0 =>
          rw [scanFirst_next_hit hraw] at hr
          rcases List.mem_cons.mp hr with h | h
          · exact h ▸ hres r0 rfl
          · exact ih .seekAnnounce (some r0) hres (by simp) hls' r h

end ScanLemmas

section ScanLastLemmas

variable {α γ : Type} {annRaw : Tas.Line → Bool} {annOk : Tas.Line → Option α}
variable {val : Tas.Line → Option (ℚ × ℚ)} {mk : α → ℚ × ℚ → γ}
variable {l : Tas.Line} {ls : List Tas.Line} {a : α}

theorem scanLast_announce_skip (h : annOk l = none) :
    scanLast annRaw annOk val mk .seekAnnounce (l :: ls)
      = scanLast annRaw annOk val mk .seekAnnounce ls := by
  simp only [scanLast, h]

theorem scanLast_announce_hit (h : annOk l = some a) :
    scanLast annRaw annOk val mk .seekAnnounce (l :: ls)
      = scanLast annRaw annOk val mk (.accum a none) ls := by
  simp only [scanLast, h]

/-- Walking the lines of one CG interval up to the first value line `V`:
whatever the working record holds, `V` overwrites it. -/
theorem scanLast_to_value {b : ℚ × ℚ} {V : Tas.Line} {bs tail : List Tas.Line}
    (res : Option γ)
    (hbs : ∀ l' ∈ bs, annRaw l' = false)
    (hVr : annRaw V = false)
    (hV : val V = some b) :
    scanLast annRaw annOk val mk (.accum a res) (bs ++ V :: tail)
      = scanLast annRaw annOk val mk (.accum a (some (mk a b))) tail := by
  induction bs generalizing res with
  | nil =>
    cases res with
    | none => simp only [List.nil_append, scanLast, hV]
    | some r => simp only [List.nil_append, scanLast, hVr, Bool.false_eq_true,
        if_false, hV]
  | cons w ws ih =>
    have hw : annRaw w = false := hbs w (by simp)
    have hws : ∀ l' ∈ ws, annRaw l' = false := fun l' hl' => hbs l' (by simp [hl'])
    cases res with
    | none =>
      cases hv : val w with
      | none => rw [List.cons_append]; simp only [scanLast, hv]; exact ih none hws
      | some b' => rw [List.cons_append]; simp only [scanLast, hv]
                   exact ih (some (mk a b')) hws
    | some r =>
      cases hv : val w with
      | none =>
        rw [List.cons_append]
        simp only [scanLast, hw, Bool.false_eq_true, if_false, hv]
        exact ih (some r) hws
      | some b' =>
        rw [List.cons_append]
        simp only [scanLast, hw, Bool.false_eq_true, if_false, hv]
        exact ih (some (mk a b')) hws

/-- After the last value line of a file-final CG interval: the working
record is emitted at end-of-file. -/
theorem scanLast_eof {r : γ} {cs : List Tas.Line}
    (hcs : ∀ l' ∈ cs, annRaw l' = false ∧ val l' = none) :
    scanLast annRaw annOk val mk (.accum a (some r)) cs = [r] := by
  induction cs with
  | nil => rfl
  | cons w ws ih =>
    obtain ⟨hw, hv⟩ := hcs w (by simp)
    simp only [scanLast, hw, Bool.false_eq_true, if_false, hv]
    exact ih fun l' hl' => hcs l' (by simp [hl'])

/-- After the last value line of a CG interval terminated by the next
announcement: the record is emitted, the announcement line is consumed,
and the scan restarts on the lines after it. -/
theorem scanLast_terminated {r : γ} {A' : Tas.Line} {cs rest : List Tas.Line}
    (hcs : ∀ l' ∈ cs, annRaw l' = false ∧ val l' = none)
    (hA' : annRaw A' = true) :
    scanLast annRaw annOk val mk (.accum a (some r)) (cs ++ A' :: rest)
      = r :: scanLast annRaw annOk val mk .seekAnnounce rest := by
  induction cs with
  | nil => rw [List.nil_append]; simp only [scanLast, hA', if_true]
  | cons w ws ih =>
    obtain ⟨hw, hv⟩ := hcs w (by simp)
    rw [List.cons_append]
    simp only [scanLast, hw, Bool.false_eq_true, if_false, hv]
    exact ih fun l' hl' => hcs l' (by simp [hl'])

/-- Invariant of the last-match scanner: every emitted record is built by
`mk` from an announcement accepted among the lines (or the one already in
the phase). -/
theorem scanLast_mem (P : γ → Prop) :
    ∀ (ls : List Tas.Line) (ph : CgPhase α γ),
    (∀ a0 res, ph = .accum a0 res →
      (∀ b, P (mk a0 b)) ∧ (∀ r, res = some r → P r)) →
    (∀ l' ∈ ls, ∀ a0, annOk l' = some a0 → ∀ b, P (mk a0 b)) →
    ∀ r ∈ scanLast annRaw annOk val mk ph ls, P r := by
  intro ls
  induction ls with
  | nil =>
    intro ph hph _ r hr
    cases ph with
    | seekAnnounce => simp [scanLast] at hr
    | accum a0 res =>
      cases res with
      | none => simp [scanLast] at hr
      | some r0 =>
        simp only [scanLast, List.mem_singleton] at hr
        exact hr ▸ (hph a0 (some r0) rfl).2 r0 rfl
  | cons l' ls ih =>
    intro ph hph hls r hr
    have hls' : ∀ l'' ∈ ls, ∀ a0, annOk l'' = some a0 → ∀ b, P (mk a0 b) :=
      fun l'' hl'' => hls l'' (by simp [hl''])
    cases ph with
    | seekAnnounce =>
      cases hok : annOk l' with
      | none =>
        rw [scanLast_announce_skip hok] at hr
        exact ih .seekAnnounce (by simp) hls' r hr
      | some a0 =>
        rw [scanLast_announce_hit hok] at hr
        refine ih (.accum a0 none) ?_ hls' r hr
        intro a1 res1 h1
        cases h1
        exact ⟨hls l' (by simp) a0 hok, by simp⟩
    | accum a0 res =>
      have hacc := hph a0 res rfl
      cases res with
      | none =>
        cases hv : val l' with
        | none =>
          simp only [scanLast, hv] at hr
          refine ih (.accum a0 none) ?_ hls' r hr
          intro a1 res1 h1; cases h1; exact ⟨hacc.1, by simp⟩
        | some b =>
          simp only [scanLast, hv] at hr
          refine ih (.accum a0 (some (mk a0 b))) ?_ hls' r hr
          intro a1 res1 h1; cases h1
          refine ⟨hacc.1, ?_⟩
          intro r1 hr1; cases hr1; exact hacc.1 b
      | some r0 =>
        cases hraw : annRaw l' with
        | true =>
          simp only [scanLast, hraw, if_true] at hr
          rcases List.mem_cons.mp hr with h | h
          · exact h ▸ hacc.2 r0 rfl
          · exact ih .seekAnnounce (by simp) hls' r h
        | false =>
          cases hv : val l' with
          | none =>
            simp only [scanLast, hraw, Bool.false_eq_true, if_false, hv] at hr
            refine ih (.accum a0 (some r0)) ?_ hls' r hr
            intro a1 res1 h1; cases h1; exact hacc
          | some b =>
            simp only [scanLast, hraw, Bool.false_eq_true, if_false, hv] at hr
            refine ih (.accum a0 (some (mk a0 b))) ?_ hls' r hr
            intro a1 res1 h1; cases h1
            refine ⟨hacc.1, ?_⟩
            intro r1 hr1; cases hr1; exact hacc.1 b

end ScanLastLemmas

/-! ### Claim C1 -/

unseal Rat.mul Rat.inv Rat.add Rat.sub in
/-- C1, counterexample: in the file `[exAnnA, exValA, exAnnB, exValB]` both
announcements have `interval_duration_raw > 0` and each is followed by a
matching broadcast line, yet the speed extractor produces a single record:
the second announcement is consumed by the first interval's seek-next-copy
loop and its interval yields no record, contradicting the claim that every
such interval produces exactly one record. -/
theorem C1_interval_skipped_cex :
    (speedAnnOk exSid exAnnA).isSome = true ∧
    (speedAnnOk exSid exAnnB).isSome = true ∧
    (Tas.matchSpeedVal exSid exValA).isSome = true ∧
    (Tas.matchSpeedVal exSid exValB).isSome = true ∧
    speedRun exSid 2 [exAnnA, exValA, exAnnB, exValB] = ([exRecA], false) := by
  decide

/-- C1 (amended): for the speed and power extractors, an announcement with
nonzero duration (resp. nonzero event-count string) that the scanner reads
while seeking an announcement, followed by its first matching broadcast
line and then by a line matching the announcement pattern, produces exactly
one record; scanning resumes only after that next announcement line, which
is consumed. -/
theorem C1_one_record_per_processed_interval :
    (∀ (sid : Tas.Line) (circ : ℚ) (res : Option SpeedSensorRecord)
       (A V A' : Tas.Line) (a : SpeedAnn) (b : ℚ × ℚ) (vs ws rest : List Tas.Line),
       speedAnnOk sid A = some a →
       (∀ l ∈ vs, Tas.matchSpeedVal sid l = none) →
       Tas.matchSpeedVal sid V = some b →
       (∀ l ∈ ws, (Tas.matchSpeedAnn sid l).isSome = false) →
       (Tas.matchSpeedAnn sid A').isSome = true →
       speedScan sid circ .seekAnnounce res (A :: (vs ++ V :: (ws ++ A' :: rest)))
         = (mkSpeedRec circ a b ::
              (speedScan sid circ .seekAnnounce (some (mkSpeedRec circ a b)) rest).1,
            (speedScan sid circ .seekAnnounce (some (mkSpeedRec circ a b)) rest).2)) ∧
    (∀ (sid : Tas.Line) (res : Option PowerSensorRecord)
       (A V A' : Tas.Line) (a : PowerAnn) (b : ℚ × ℚ) (vs ws rest : List Tas.Line),
       powerAnnOk sid A = some a →
       (∀ l ∈ vs, Tas.matchPowerVal sid l = none) →
       Tas.matchPowerVal sid V = some b →
       (∀ l ∈ ws, (Tas.matchPowerAnn sid l).isSome = false) →
       (Tas.matchPowerAnn sid A').isSome = true →
       powerScan sid .seekAnnounce res (A :: (vs ++ V :: (ws ++ A' :: rest)))
         = (mkPowerRec a b ::
              (powerScan sid .seekAnnounce (some (mkPowerRec a b)) rest).1,
            (powerScan sid .seekAnnounce (some (mkPowerRec a b)) rest).2)) := by
  constructor
  · intro sid circ res A V A' a b vs ws rest hA hvs hV hws hA'
    exact scanFirst_interval hA hvs hV hws hA'
  · intro sid res A V A' a b vs ws rest hA hvs hV hws hA'
    exact scanFirst_interval hA hvs hV hws hA'

unseal Rat.mul Rat.inv Rat.add Rat.sub in
/-- C1, witness: the amended theorem applied to concrete one-interval files
for both channels. -/
theorem C1_witness :
    speedScan exSid 2 .seekAnnounce none [exAnnA, exValA, exAnnB] = ([exRecA], false) ∧
    powerScan exPsid .seekAnnounce none [exPAnn, exPVal, exPAnn] = ([exPRec], false) := by
  constructor
  · have h := C1_one_record_per_processed_interval.1 exSid 2 none exAnnA exValA exAnnB
      ⟨str "1024", str "1"⟩ (19 / 2, 13 / 4) [] [] []
      (by decide) (by simp) (by decide) (by simp) (by decide)
    exact h.trans (by decide)
  · have h := C1_one_record_per_processed_interval.2 exPsid none exPAnn exPVal exPAnn
      ⟨str "5", str "2000"⟩ (19 / 2, 250) [] [] []
      (by decide) (by simp) (by decide) (by simp) (by decide)
    exact h.trans (by decide)

/-! ### Claim C2 -/

unseal Rat.mul Rat.inv Rat.add Rat.sub in
/-- C2: the code's actual behaviour at the failing input
`[exAnnA, exValA, exAnnB, exAnnC]`.  `exAnnC` is a valid announcement whose
broadcast line never arrives before end-of-file, yet the generator emits a
second copy of the first interval's record for it (the stale `result`
variable); and on `[exAnnA]` alone the generator raises `UnboundLocalError`
(the `true` flag) instead of silently discarding the partial interval. -/
theorem C2_stale_record_emitted :
    (speedAnnOk exSid exAnnC).isSome = true ∧
    speedRun exSid 2 [exAnnA, exValA, exAnnB, exAnnC] = ([exRecA, exRecA], false) ∧
    speedRun exSid 2 [exAnnA] = ([], true) := by
  decide

/-! ### Claim C3 -/

unseal Rat.mul Rat.inv Rat.add Rat.sub in
/-- C3, counterexample: in `[exAnnA, exCgA, exAnnB, exCgB, exAnnC, exCgC]`
three valid CG intervals alternate with their broadcast lines, but only two
records come out: the announcement `exAnnB` that terminated the first
interval's accumulation is consumed and dropped, not used as the start of
the next interval, so `exAnnB`'s interval is skipped. -/
theorem C3_terminator_dropped_cex :
    (speedAnnOk exSid exAnnB).isSome = true ∧
    (Tas.matchCgVal exSid exCgB).isSome = true ∧
    cgRun exSid 2 [exAnnA, exCgA, exAnnB, exCgB, exAnnC, exCgC]
      = [exRecCgA, exRecCgC] := by
  decide

/-- C3 (amended): when CG accumulation is terminated by a line matching the
announcement pattern, the completed record is emitted but that announcement
line is consumed and dropped; the scan for the next interval starts only at
the lines after it. -/
theorem C3_terminator_consumed :
    ∀ (sid : Tas.Line) (circ : ℚ) (A V A' : Tas.Line) (a : SpeedAnn)
      (b : ℚ × ℚ) (bs cs rest : List Tas.Line),
      speedAnnOk sid A = some a →
      (∀ l ∈ bs, (Tas.matchSpeedAnn sid l).isSome = false) →
      (Tas.matchSpeedAnn sid V).isSome = false →
      Tas.matchCgVal sid V = some b →
      (∀ l ∈ cs, (Tas.matchSpeedAnn sid l).isSome = false ∧
        Tas.matchCgVal sid l = none) →
      (Tas.matchSpeedAnn sid A').isSome = true →
      cgRun sid circ (A :: (bs ++ V :: (cs ++ A' :: rest)))
        = mkSpeedRec circ a b :: cgRun sid circ rest := by
  intro sid circ A V A' a b bs cs rest hA hbs hVr hV hcs hA'
  show cgScan sid circ .seekAnnounce _ = _
  rw [show cgScan sid circ .seekAnnounce (A :: (bs ++ V :: (cs ++ A' :: rest)))
        = cgScan sid circ (.accum a none) (bs ++ V :: (cs ++ A' :: rest))
      from scanLast_announce_hit hA]
  rw [show cgScan sid circ (.accum a none) (bs ++ V :: (cs ++ A' :: rest))
        = cgScan sid circ (.accum a (some (mkSpeedRec circ a b))) (cs ++ A' :: rest)
      from scanLast_to_value none hbs hVr hV]
  exact scanLast_terminated hcs hA'

unseal Rat.mul Rat.inv Rat.add Rat.sub in
/-- C3, witness: the amended theorem at a concrete two-interval CG file. -/
theorem C3_witness :
    cgRun exSid 2 [exAnnA, exCgA, exAnnB, exAnnC, exCgC] = [exRecCgA, exRecCgC] := by
  have h := C3_terminator_consumed exSid 2 exAnnA exCgA exAnnB
    ⟨str "1024", str "1"⟩ (19 / 2, 13 / 4) [] [] [exAnnC, exCgC]
    (by decide) (by simp) (by decide) (by decide) (by simp) (by decide)
  exact h.trans (by decide)

/-! ### Claim C5 -/

/-- C5: for a CG interval whose announcement has nonzero duration, followed
by broadcast lines of which `V` is the last, the single emitted record is
built from `V` (the last broadcast), and it is emitted at end-of-file even
though no further announcement follows. -/
theorem C5_last_value_wins :
    ∀ (sid : Tas.Line) (circ : ℚ) (A V : Tas.Line) (a : SpeedAnn)
      (b : ℚ × ℚ) (bs cs : List Tas.Line),
      speedAnnOk sid A = some a →
      (∀ l ∈ bs, (Tas.matchSpeedAnn sid l).isSome = false) →
      (Tas.matchSpeedAnn sid V).isSome = false →
      Tas.matchCgVal sid V = some b →
      (∀ l ∈ cs, (Tas.matchSpeedAnn sid l).isSome = false ∧
        Tas.matchCgVal sid l = none) →
      cgRun sid circ (A :: (bs ++ V :: cs)) = [mkSpeedRec circ a b] := by
  intro sid circ A V a b bs cs hA hbs hVr hV hcs
  show cgScan sid circ .seekAnnounce _ = _
  rw [show cgScan sid circ .seekAnnounce (A :: (bs ++ V :: cs))
        = cgScan sid circ (.accum a none) (bs ++ V :: cs)
      from scanLast_announce_hit hA]
  rw [show cgScan sid circ (.accum a none) (bs ++ V :: cs)
        = cgScan sid circ (.accum a (some (mkSpeedRec circ a b))) cs
      from scanLast_to_value none hbs hVr hV]
  exact scanLast_eof hcs

unseal Rat.mul Rat.inv Rat.add Rat.sub in
/-- C5, witness: two broadcasts in one interval ending at end-of-file; the
emitted record carries the second broadcast's timestamp and value. -/
theorem C5_witness :
    cgRun exSid 2 [exAnnA, exCgA, exCgB] = [exRecCgB] := by
  have h := C5_last_value_wins exSid 2 exAnnA exCgB
    ⟨str "1024", str "1"⟩ (21 / 2, 17 / 4) [exCgA] []
    (by decide) (by decide) (by decide) (by decide) (by simp)
  exact h.trans (by decide)

/-! ### Claim C6 -/

unseal Rat.mul Rat.inv Rat.add Rat.sub in
/-- C6, counterexample: a power announcement whose `event_count` field is
the two-character string `00` — numerically exactly zero — is *not*
discarded (the source compares the raw string to `'0'`), so a power record
with `event_count = 0` is produced for that interval, contradicting the
claim that an event-count of exactly zero yields no record. -/
theorem C6_event_count_00_cex :
    Tas.matchPowerAnn exPsid exPAnn00
      = some ⟨str "00", str "2000"⟩ ∧
    Tas.ofDigits (str "00") = 0 ∧
    powerRun exPsid [exPAnn00, exPVal] = ([exPRec00], false) := by
  decide

/-- C6 (amended): an announcement whose timer converts to the number zero
yields no speed or CG-speed record and scanning continues with the
following lines; a power announcement is skipped the same way exactly when
its event-count field is the literal string `0` (a field like `00` is
numerically zero but is processed). -/
theorem C6_zero_interval_skipped :
    (∀ (sid : Tas.Line) (circ : ℚ) (l : Tas.Line) (ls : List Tas.Line) (a : SpeedAnn),
       Tas.matchSpeedAnn sid l = some a → Tas.ofDigits a.timer = 0 →
       speedRun sid circ (l :: ls) = speedRun sid circ ls) ∧
    (∀ (sid : Tas.Line) (circ : ℚ) (l : Tas.Line) (ls : List Tas.Line) (a : SpeedAnn),
       Tas.matchSpeedAnn sid l = some a → Tas.ofDigits a.timer = 0 →
       cgRun sid circ (l :: ls) = cgRun sid circ ls) ∧
    (∀ (sid : Tas.Line) (l : Tas.Line) (ls : List Tas.Line) (a : PowerAnn),
       Tas.matchPowerAnn sid l = some a → a.eventCount = ['0'] →
       powerRun sid (l :: ls) = powerRun sid ls) := by
  refine ⟨?_, ?_, ?_⟩
  · intro sid circ l ls a hm hz
    exact scanFirst_announce_skip (by simp [speedAnnOk, hm, hz])
  · intro sid circ l ls a hm hz
    exact scanLast_announce_skip (by simp [speedAnnOk, hm, hz])
  · intro sid l ls a hm hz
    exact scanFirst_announce_skip (by simp [powerAnnOk, hm, hz])

unseal Rat.mul Rat.inv Rat.add Rat.sub in
/-- C6, witness: a zero-timer speed announcement and a literal-`0`
event-count power announcement are skipped in concrete files. -/
theorem C6_witness :
    speedRun exSid 2 [str "SPD_77\t100.0\tS\t0\t0\t1\t\t", exAnnA, exValA]
      = speedRun exSid 2 [exAnnA, exValA] ∧
    cgRun exSid 2 [str "SPD_77\t100.0\tS\t0\t0\t1\t\t", exAnnA, exCgA]
      = cgRun exSid 2 [exAnnA, exCgA] ∧
    powerRun exPsid [str "PWR_88\t100.0\tS\t0\t2000\t7\t8\t", exPAnn, exPVal]
      = powerRun exPsid [exPAnn, exPVal] := by
  refine ⟨?_, ?_, ?_⟩
  · exact C6_zero_interval_skipped.1 exSid 2 _ _ ⟨str "0", str "1"⟩
      (by decide) (by decide)
  · exact C6_zero_interval_skipped.2.1 exSid 2 _ _ ⟨str "0", str "1"⟩
      (by decide) (by decide)
  · exact C6_zero_interval_skipped.2.2 exPsid _ _ ⟨str "0", str "2000"⟩
      (by decide) (by decide)

/-! ### Claim C4 -/

/-- Inserting a line that matches no marker, no terminator and neither
key/value shape anywhere in a file does not change the settings scan. -/
theorem settingsRun_junk {j : Tas.Line} (hj : junkLine j) :
    ∀ (pre : List Tas.Line) (ph : SetPhase) (d : Settings) (post : List Tas.Line),
      settingsRun ph d (pre ++ j :: post) = settingsRun ph d (pre ++ post) := by
  obtain ⟨h1, h2, h3, h4, h5⟩ := hj
  intro pre
  induction pre with
  | nil =>
    intro ph d post
    cases ph with
    | seekTime =>
      simp only [List.nil_append, settingsRun, h1, Bool.false_eq_true, if_false]
    | inTime =>
      simp only [List.nil_append, settingsRun, h3, Bool.false_eq_true, if_false, h4]
    | seekRider =>
      simp only [List.nil_append, settingsRun, h2, Bool.false_eq_true, if_false]
    | inRider =>
      simp only [List.nil_append, settingsRun, h3, Bool.false_eq_true, if_false, h5]
  | cons l pre ih =>
    intro ph d post
    cases ph with
    | seekTime =>
      cases hm : startsLit (str "#\tTime and Date") l with
      | true => simp only [List.cons_append, settingsRun, hm, if_true]; exact ih _ _ _
      | false =>
        simp only [List.cons_append, settingsRun, hm, Bool.false_eq_true, if_false]
        exact ih _ _ _
    | inTime =>
      cases hm : startsLit (str "###") l with
      | true => simp only [List.cons_append, settingsRun, hm, if_true]; exact ih _ _ _
      | false =>
        cases hkv : kvTime l with
        | none =>
          simp only [List.cons_append, settingsRun, hm, Bool.false_eq_true, if_false, hkv]
          exact ih _ _ _
        | some kv =>
          simp only [List.cons_append, settingsRun, hm, Bool.false_eq_true, if_false, hkv]
          exact ih _ _ _
    | seekRider =>
      cases hm : startsLit (str "#\tRider and Device Data") l with
      | true => simp only [List.cons_append, settingsRun, hm, if_true]; exact ih _ _ _
      | false =>
        simp only [List.cons_append, settingsRun, hm, Bool.false_eq_true, if_false]
        exact ih _ _ _
    | inRider =>
      cases hm : startsLit (str "###") l with
      | true => simp only [List.cons_append, settingsRun, hm, if_true]
      | false =>
        cases hkv : kvRider l with
        | none =>
          simp only [List.cons_append, settingsRun, hm, Bool.false_eq_true, if_false, hkv]
          exact ih _ _ _
        | some kv =>
          simp only [List.cons_append, settingsRun, hm, Bool.false_eq_true, if_false, hkv]
          exact ih _ _ _

/-- C4, counterexample: the settings accessor cannot fail — there is no
`MissingSectionError` anywhere in the module — and on files in which the
required section markers never occur it simply returns the empty mapping
normally (here on the empty file and on a marker-less file that even
contains a rider-shaped data line). -/
theorem C4_no_error_cex :
    settingsOf [] = [] ∧
    settingsOf [str "hello", str "#\t\tSPEED\tSPD_77\t2.0\t0"] = [] := by
  decide

/-- C4 (amended): the settings accessor is a total function returning a
mapping for every input and never raises; a missing section marker merely
leaves that section's keys absent, and any line matching neither a section
marker, the terminator, nor one of the two key/value shapes is silently
skipped wherever it occurs. -/
theorem C4_junk_skipped :
    ∀ (j : Tas.Line), junkLine j →
    ∀ (pre post : List Tas.Line),
      settingsOf (pre ++ j :: post) = settingsOf (pre ++ post) := by
  intro j hj pre post
  exact settingsRun_junk hj pre .seekTime [] post

/-- C4, witness: a malformed line inside the rider section is skipped. -/
theorem C4_witness :
    settingsOf (exHdrPre ++ str "#\t\tbad line" :: [str "###"])
      = settingsOf (exHdrPre ++ [str "###"]) := by
  exact C4_junk_skipped (str "#\t\tbad line") (by unfold junkLine; decide)
    exHdrPre [str "###"]

/-! ### Claim C7 -/

/-- C7: every record emitted by the speed or CG-speed extractor has
`elapsed_time = round6(timer / 1024)`, and every power record has
`elapsed_time = round6(raw * 0.0005)`, where the raw value is the integer
timer (resp. elapsed-time) field of a line of the file matching the
announcement pattern. -/
theorem C7_elapsed_formula :
    (∀ (sid : Tas.Line) (circ : ℚ) (file : List Tas.Line) (r : SpeedSensorRecord),
       r ∈ (speedRun sid circ file).1 →
       ∃ t ∈ speedTimers sid file, r.elapsed_time = round6 ((t : ℚ) / 1024)) ∧
    (∀ (sid : Tas.Line) (circ : ℚ) (file : List Tas.Line) (r : SpeedSensorRecord),
       r ∈ cgRun sid circ file →
       ∃ t ∈ speedTimers sid file, r.elapsed_time = round6 ((t : ℚ) / 1024)) ∧
    (∀ (sid : Tas.Line) (file : List Tas.Line) (r : PowerSensorRecord),
       r ∈ (powerRun sid file).1 →
       ∃ t ∈ powerElapsedRaws sid file, r.elapsed_time = round6 ((t : ℚ) * (5 / 10000))) := by
  refine ⟨?_, ?_, ?_⟩
  · intro sid circ file r hr
    refine scanFirst_mem
      (fun r0 => ∃ t ∈ speedTimers sid file, r0.elapsed_time = round6 ((t : ℚ) / 1024))
      file .seekAnnounce none (fun r0 h => Option.noConfusion h)
      (fun a h => Phase.noConfusion h) ?_ r hr
    intro l hl a hok b
    have hm : Tas.matchSpeedAnn sid l = some a := by
      revert hok
      unfold speedAnnOk
      cases h : Tas.matchSpeedAnn sid l with
      | none => simp
      | some a' =>
        simp only [Option.some_bind]
        split
        · simp
        · intro h'
          simpa using h'
    exact ⟨Tas.ofDigits a.timer,
      List.mem_filterMap.mpr ⟨l, hl, by rw [hm]; rfl⟩, rfl⟩
  · intro sid circ file r hr
    refine scanLast_mem
      (fun r0 => ∃ t ∈ speedTimers sid file, r0.elapsed_time = round6 ((t : ℚ) / 1024))
      file .seekAnnounce (fun a0 res h => CgPhase.noConfusion h) ?_ r hr
    intro l hl a hok b
    have hm : Tas.matchSpeedAnn sid l = some a := by
      revert hok
      unfold speedAnnOk
      cases h : Tas.matchSpeedAnn sid l with
      | none => simp
      | some a' =>
        simp only [Option.some_bind]
        split
        · simp
        · intro h'
          simpa using h'
    exact ⟨Tas.ofDigits a.timer,
      List.mem_filterMap.mpr ⟨l, hl, by rw [hm]; rfl⟩, rfl⟩
  · intro sid file r hr
    refine scanFirst_mem
      (fun r0 => ∃ t ∈ powerElapsedRaws sid file,
        r0.elapsed_time = round6 ((t : ℚ) * (5 / 10000)))
      file .seekAnnounce none (fun r0 h => Option.noConfusion h)
      (fun a h => Phase.noConfusion h) ?_ r hr
    intro l hl a hok b
    have hm : Tas.matchPowerAnn sid l = some a := by
      revert hok
      unfold powerAnnOk
      cases h : Tas.matchPowerAnn sid l with
      | none => simp
      | some a' =>
        simp only [Option.some_bind]
        split
        · simp
        · intro h'
          simpa using h'
    exact ⟨Tas.ofDigits a.elapsed,
      List.mem_filterMap.mpr ⟨l, hl, by rw [hm]; rfl⟩, rfl⟩

unseal Rat.mul Rat.inv Rat.add Rat.sub in
/-- C7, witness: the invariant applied to concrete one-interval files for
each of the three extractors. -/
theorem C7_witness :
    (∃ t ∈ speedTimers exSid [exAnnA, exValA],
       exRecA.elapsed_time = round6 ((t : ℚ) / 1024)) ∧
    (∃ t ∈ speedTimers exSid [exAnnA, exCgA],
       exRecCgA.elapsed_time = round6 ((t : ℚ) / 1024)) ∧
    (∃ t ∈ powerElapsedRaws exPsid [exPAnn, exPVal],
       exPRec.elapsed_time = round6 ((t : ℚ) * (5 / 10000))) := by
  refine ⟨?_, ?_, ?_⟩
  · exact C7_elapsed_formula.1 exSid 2 [exAnnA, exValA] exRecA (by decide)
  · exact C7_elapsed_formula.2.1 exSid 2 [exAnnA, exCgA] exRecCgA (by decide)
  · exact C7_elapsed_formula.2.2 exPsid [exPAnn, exPVal] exPRec (by decide)

/-! ### Claim C8 -/

unseal Rat.mul Rat.inv Rat.add Rat.sub in
/-- C8: the end-to-end scenario — one speed announcement with circumference
2.105, count 50, timer 2048, three identical repeated SPEED broadcast lines
with timestamp 1700000000.5 and speed 9.876500, then one new announcement —
yields exactly one record, with value 9.8765, elapsed time 2, count 50 and
circumference 2.105. -/
theorem C8_end_to_end :
    speedPipeline exC8File = some ([exC8Rec], false) ∧
    exC8Rec.value = 98765 / 10000 ∧ exC8Rec.elapsed_time = 2 ∧
    exC8Rec.count = 50 ∧ exC8Rec.circumference = 2105 / 1000 := by
  decide

/-! ### Claim C9 -/

/-- Inserting an element with `orderedInsert` never changes the sublist of
elements carrying a given timestamp, other than by prepending the new
element when it carries that timestamp itself. -/
theorem filter_orderedInsert (q : ℚ) (x : MainRecord) :
    ∀ l : List MainRecord,
      (List.orderedInsert tsLE x l).filter (fun r => decide (r.timestamp = q))
        = ((x :: l).filter (fun r => decide (r.timestamp = q))) := by
  intro l
  induction l with
  | nil => rfl
  | cons y ys ih =>
    by_cases hxy : tsLE x y
    · rw [List.orderedInsert, if_pos hxy]
    · rw [List.orderedInsert, if_neg hxy]
      by_cases hy : y.timestamp = q
      · by_cases hx : x.timestamp = q
        · exact absurd (le_of_eq (hx.trans hy.symm) : tsLE x y) hxy
        · simp [List.filter_cons, hx, hy, ih]
      · simp [List.filter_cons, hy, ih]

/-- Insertion sort is a stable sort: the sublist of elements at any given
timestamp is unchanged. -/
theorem filter_insertionSort (q : ℚ) :
    ∀ l : List MainRecord,
      (List.insertionSort tsLE l).filter (fun r => decide (r.timestamp = q))
        = l.filter (fun r => decide (r.timestamp = q)) := by
  intro l
  induction l with
  | nil => rfl
  | cons x xs ih =>
    rw [List.insertionSort, filter_orderedInsert]
    simp only [List.filter_cons, ih]

unseal Rat.mul Rat.inv Rat.add Rat.sub in
/-- C9, counterexample: a single extractor's output is in file order of the
broadcast lines, which need not be chronological: in this file the speed
extractor emits timestamps 9.5 then 5.5, a strictly decreasing sequence,
refuting the claim that every extractor's sequence has non-decreasing
timestamps. -/
theorem C9_unsorted_extractor_cex :
    ((speedRun exSid 2 [exAnnA, exValA, exAnnB, exAnnC, exValLate]).1.map
        SpeedSensorRecord.timestamp) = [19 / 2, 11 / 2] ∧
    ¬ List.Chain' (fun x y : ℚ => x ≤ y)
        ((speedRun exSid 2 [exAnnA, exValA, exAnnB, exAnnC, exValLate]).1.map
          SpeedSensorRecord.timestamp) := by
  refine ⟨by decide, ?_⟩
  intro hch
  rw [show ((speedRun exSid 2 [exAnnA, exValA, exAnnB, exAnnC, exValLate]).1.map
      SpeedSensorRecord.timestamp) = [19 / 2, 11 / 2] from by decide] at hch
  rcases List.chain'_cons.mp hch with ⟨hle, -⟩
  exact absurd hle (by decide)

/-- C9 (amended): within a single extractor records appear in file order of
their broadcast lines, which need not be non-decreasing in timestamp; the
merged CLI output, however, is sorted ascending by timestamp with a stable
sort, ties keeping their original relative order (speed records before
power records at equal timestamps). -/
theorem C9_merged_sorted_stable :
    ∀ (file : List Tas.Line) (l recs : List MainRecord),
      mainUnsorted file = some l → mainRecords file = some recs →
      List.Sorted tsLE recs ∧
      ∀ q : ℚ, recs.filter (fun r => decide (r.timestamp = q))
        = l.filter (fun r => decide (r.timestamp = q)) := by
  intro file l recs h1 h2
  have hrec : recs = List.insertionSort tsLE l := by
    unfold mainRecords at h2
    rw [h1] at h2
    simpa using h2.symm
  subst hrec
  exact ⟨List.sorted_insertionSort tsLE l, fun q => filter_insertionSort q l⟩

/-! ### Claim C10 -/

theorem splitOnChar_cons_exists (sep : Char) (xs : List Char) :
    ∃ p ps, splitOnChar sep xs = p :: ps := by
  induction xs with
  | nil => exact ⟨[], [], rfl⟩
  | cons c rest ih =>
    by_cases hc : c = sep
    · exact ⟨[], splitOnChar sep rest, by simp [splitOnChar, hc]⟩
    · obtain ⟨p, ps, hps⟩ := ih
      exact ⟨c :: p, ps, by simp [splitOnChar, hc, hps]⟩

theorem splitOnChar_append_sep (sep : Char) (xs ys : List Char) :
    splitOnChar sep (xs ++ sep :: ys) = splitOnChar sep xs ++ splitOnChar sep ys := by
  induction xs with
  | nil => simp [splitOnChar]
  | cons c rest ih =>
    by_cases hc : c = sep
    · simp [splitOnChar, hc, ih]
    · obtain ⟨p, ps, hps⟩ := splitOnChar_cons_exists sep rest
      simp [splitOnChar, hc, ih, hps]

theorem splitOnChar_no_sep (sep : Char) (xs : List Char) (h : sep ∉ xs) :
    splitOnChar sep xs = [xs] := by
  induction xs with
  | nil => rfl
  | cons c rest ih =>
    have hc : ¬ c = sep := fun hx => h (hx ▸ List.mem_cons_self c rest)
    simp [splitOnChar, hc, ih fun hx => h (List.mem_cons_of_mem c hx)]

theorem all_digit_no_tab {o : Tas.Line} (h : o.all digitC = true) : '\t' ∉ o :=
  fun hm => absurd (List.all_eq_true.mp h _ hm) (by decide)

/-- A well-formed POWER settings line parses to the `power` key and the
`(value, offset, param2)` triple. -/
theorem kvRider_powerSettingLine {v o p2 : Tas.Line}
    (hv : '\t' ∉ v) (hv' : v ≠ []) (ho : '\t' ∉ o) (ho' : o ≠ [])
    (hp : '\t' ∉ p2) (hp' : p2 ≠ []) :
    kvRider (powerSettingLine v o p2)
      = some (str "power", SettingVal.triple v o p2) := by
  have hsplit : splitOnChar '\t' (v ++ '\t' :: (o ++ '\t' :: p2)) = [v, o, p2] := by
    rw [splitOnChar_append_sep, splitOnChar_append_sep,
      splitOnChar_no_sep _ _ hv, splitOnChar_no_sep _ _ ho, splitOnChar_no_sep _ _ hp]
    rfl
  show (classifyParts (splitOnChar '\t' (v ++ '\t' :: (o ++ '\t' :: p2)))).map
      (fun w => (lowerL (str "POWER"), w)) = _
  rw [hsplit]
  show (classifyParts [v, o, p2]).map (fun w => (str "power", w)) = _
  rw [show classifyParts [v, o, p2] = some (SettingVal.triple v o p2) from by
    show (if v ≠ [] ∧ o ≠ [] ∧ p2 ≠ [] then
        some (SettingVal.triple v o p2) else none) = some (SettingVal.triple v o p2)
    rw [if_pos ⟨hv', ho', hp'⟩]]
  rfl

/-- The POWER settings line matches no marker and no time-section shape. -/
theorem powerSettingLine_markers (v o p2 : Tas.Line) :
    startsLit (str "#\tTime and Date") (powerSettingLine v o p2) = false ∧
    startsLit (str "#\tRider and Device Data") (powerSettingLine v o p2) = false ∧
    startsLit (str "###") (powerSettingLine v o p2) = false ∧
    kvTime (powerSettingLine v o p2) = none :=
  ⟨rfl, rfl, rfl, rfl⟩

/-- The POWER settings line is invisible to the power scanner's patterns. -/
theorem powerSettingLine_scan_inert (sid v o p2 : Tas.Line) :
    Tas.matchPowerAnn sid (powerSettingLine v o p2) = none ∧
    Tas.matchPowerVal sid (powerSettingLine v o p2) = none :=
  ⟨rfl, rfl⟩

theorem LineRel_refl (o1 o2 l : Tas.Line) : LineRel o1 o2 l l := by
  refine ⟨rfl, rfl, rfl, rfl, ?_⟩
  cases h : kvRider l with
  | none => exact Or.inl ⟨rfl, rfl⟩
  | some kv =>
    cases kv with
    | mk k x => exact Or.inr ⟨k, x, x, rfl, rfl, Or.inl rfl⟩

theorem PowerScanEq_refl (sid l : Tas.Line) : PowerScanEq sid l l := ⟨rfl, rfl⟩

/-- The settings scan maps `LineRel`-related files and `SettingsRel`-related
accumulators to `SettingsRel`-related results. -/
theorem settingsRun_rel {o1 o2 : Tas.Line} {f1 f2 : List Tas.Line}
    (hf : List.Forall₂ (LineRel o1 o2) f1 f2) :
    ∀ (ph : SetPhase) {d1 d2 : Settings}, SettingsRel o1 o2 d1 d2 →
      SettingsRel o1 o2 (settingsRun ph d1 f1) (settingsRun ph d2 f2) := by
  induction hf with
  | nil =>
    intro ph d1 d2 hd
    cases ph <;> exact hd
  | @cons l1 l2 t1 t2 hl ht ih =>
    intro ph d1 d2 hd
    obtain ⟨e1, e2, e3, e4, e5⟩ := hl
    cases ph with
    | seekTime =>
      cases hm : startsLit (str "#\tTime and Date") l2 with
      | true =>
        simp only [settingsRun, e1, hm, if_true]
        exact ih .inTime hd
      | false =>
        simp only [settingsRun, e1, hm, Bool.false_eq_true, if_false]
        exact ih .seekTime hd
    | inTime =>
      cases hm : startsLit (str "###") l2 with
      | true =>
        simp only [settingsRun, e3, hm, if_true]
        exact ih .seekRider hd
      | false =>
        cases hkv : kvTime l2 with
        | none =>
          simp only [settingsRun, e3, hm, Bool.false_eq_true, if_false, e4, hkv]
          exact ih .inTime hd
        | some kv =>
          simp only [settingsRun, e3, hm, Bool.false_eq_true, if_false, e4, hkv]
          exact ih .inTime (List.Forall₂.cons ⟨rfl, Or.inl rfl⟩ hd)
    | seekRider =>
      cases hm : startsLit (str "#\tRider and Device Data") l2 with
      | true =>
        simp only [settingsRun, e2, hm, if_true]
        exact ih .inRider hd
      | false =>
        simp only [settingsRun, e2, hm, Bool.false_eq_true, if_false]
        exact ih .seekRider hd
    | inRider =>
      cases hm : startsLit (str "###") l2 with
      | true =>
        simp only [settingsRun, e3, hm, if_true]
        exact hd
      | false =>
        rcases e5 with ⟨hn1, hn2⟩ | ⟨k, x, y, hx, hy, hxy⟩
        · simp only [settingsRun, e3, hm, Bool.false_eq_true, if_false, hn1, hn2]
          exact ih .inRider hd
        · simp only [settingsRun, e3, hm, Bool.false_eq_true, if_false, hx, hy]
          exact ih .inRider (List.Forall₂.cons ⟨rfl, hxy⟩ hd)

/-- Related settings agree on every lookup, up to `ValRel`. -/
theorem lookup_rel {o1 o2 : Tas.Line} (k : Tas.Line) :
    ∀ {d1 d2 : Settings}, SettingsRel o1 o2 d1 d2 →
      (d1.lookup k = none ∧ d2.lookup k = none) ∨
      (∃ x y, d1.lookup k = some x ∧ d2.lookup k = some y ∧ ValRel o1 o2 x y) := by
  intro d1 d2 h
  induction h with
  | nil => exact Or.inl ⟨rfl, rfl⟩
  | @cons e1 e2 t1 t2 he ht ih =>
    obtain ⟨hk, hv⟩ := he
    cases hc : k == e2.1 with
    | true =>
      refine Or.inr ⟨e1.2, e2.2, ?_, ?_, hv⟩
      · show List.lookup k ((e1.1, e1.2) :: t1) = some e1.2
        rw [List.lookup, hk, hc]
      · show List.lookup k ((e2.1, e2.2) :: t2) = some e2.2
        rw [List.lookup, hc]
    | false =>
      rcases ih with ⟨h1, h2⟩ | ⟨x, y, h1, h2, hxy⟩
      · refine Or.inl ⟨?_, ?_⟩
        · show List.lookup k ((e1.1, e1.2) :: t1) = none
          rw [List.lookup, hk, hc, h1]
        · show List.lookup k ((e2.1, e2.2) :: t2) = none
          rw [List.lookup, hc, h2]
      · refine Or.inr ⟨x, y, ?_, ?_, hxy⟩
        · show List.lookup k ((e1.1, e1.2) :: t1) = some x
          rw [List.lookup, hk, hc, h1]
        · show List.lookup k ((e2.1, e2.2) :: t2) = some y
          rw [List.lookup, hc, h2]

theorem scanFirst_next_none {α γ : Type} {annRaw : Tas.Line → Bool}
    {annOk : Tas.Line → Option α} {val : Tas.Line → Option (ℚ × ℚ)}
    {mk : α → ℚ × ℚ → γ} {l : Tas.Line} {ls : List Tas.Line}
    (h : annRaw l = true) :
    scanFirst annRaw annOk val mk .seekNext none (l :: ls) = ([], true) := by
  simp only [scanFirst, h]
  rfl

/-- The first-match scanner cannot distinguish files whose lines are
pointwise indistinguishable to its three matchers. -/
theorem scanFirst_congr {α γ : Type} {annRaw1 annRaw2 : Tas.Line → Bool}
    {annOk1 annOk2 : Tas.Line → Option α} {val1 val2 : Tas.Line → Option (ℚ × ℚ)}
    {mk : α → ℚ × ℚ → γ} {f1 f2 : List Tas.Line}
    (hf : List.Forall₂ (fun l1 l2 => annRaw1 l1 = annRaw2 l2 ∧
      annOk1 l1 = annOk2 l2 ∧ val1 l1 = val2 l2) f1 f2) :
    ∀ (ph : Phase α) (res : Option γ),
      scanFirst annRaw1 annOk1 val1 mk ph res f1
        = scanFirst annRaw2 annOk2 val2 mk ph res f2 := by
  induction hf with
  | nil =>
    intro ph res
    cases ph <;> cases res <;> rfl
  | @cons l1 l2 t1 t2 hl ht ih =>
    intro ph res
    obtain ⟨e1, e2, e3⟩ := hl
    cases ph with
    | seekAnnounce =>
      cases hok : annOk2 l2 with
      | none =>
        rw [scanFirst_announce_skip (e2.trans hok), scanFirst_announce_skip hok]
        exact ih _ _
      | some a =>
        rw [scanFirst_announce_hit (e2.trans hok), scanFirst_announce_hit hok]
        exact ih _ _
    | seekValue a =>
      cases hv : val2 l2 with
      | none =>
        rw [scanFirst_value_skip (e3.trans hv), scanFirst_value_skip hv]
        exact ih _ _
      | some b =>
        rw [scanFirst_value_hit (e3.trans hv), scanFirst_value_hit hv]
        exact ih _ _
    | seekNext =>
      cases hr : annRaw2 l2 with
      | false =>
        rw [scanFirst_next_skip (e1.trans hr), scanFirst_next_skip hr]
        exact ih _ _
      | true =>
        cases res with
        | none => rw [scanFirst_next_none (e1.trans hr), scanFirst_next_none hr]
        | some r =>
          rw [scanFirst_next_hit (e1.trans hr), scanFirst_next_hit hr, ih _ _]

/-- C10: the power-meter offset `settings['power'][1]` is parsed but never
used — two files that differ only in that digit-string value produce the
same power record sequence. -/
theorem C10_offset_no_effect :
    ∀ (pre post : List Tas.Line) (v p2 o1 o2 : Tas.Line),
      o1.all digitC = true → o1 ≠ [] → o2.all digitC = true → o2 ≠ [] →
      '\t' ∉ v → v ≠ [] → '\t' ∉ p2 → p2 ≠ [] →
      powerPipeline (pre ++ powerSettingLine v o1 p2 :: post)
        = powerPipeline (pre ++ powerSettingLine v o2 p2 :: post) := by
  intro pre post v p2 o1 o2 ho1d ho1n ho2d ho2n hv hv' hp hp'
  have ho1t : '\t' ∉ o1 := all_digit_no_tab ho1d
  have ho2t : '\t' ∉ o2 := all_digit_no_tab ho2d
  set L1 := powerSettingLine v o1 p2 with hL1
  set L2 := powerSettingLine v o2 p2 with hL2
  set f1 := pre ++ L1 :: post with hf1
  set f2 := pre ++ L2 :: post with hf2
  -- the two settings mappings are related
  have hfrel : List.Forall₂ (LineRel o1 o2) f1 f2 := by
    refine List.rel_append (List.forall₂_same.mpr fun x _ => LineRel_refl o1 o2 x)
      (List.Forall₂.cons ?_ (List.forall₂_same.mpr fun x _ => LineRel_refl o1 o2 x))
    obtain ⟨m1a, m2a, m3a, m4a⟩ := powerSettingLine_markers v o1 p2
    obtain ⟨m1b, m2b, m3b, m4b⟩ := powerSettingLine_markers v o2 p2
    refine ⟨m1a.trans m1b.symm, m2a.trans m2b.symm, m3a.trans m3b.symm,
      m4a.trans m4b.symm, Or.inr ⟨str "power", SettingVal.triple v o1 p2,
        SettingVal.triple v o2 p2,
        kvRider_powerSettingLine hv hv' ho1t ho1n hp hp',
        kvRider_powerSettingLine hv hv' ho2t ho2n hp hp',
        Or.inr ⟨v, p2, rfl, rfl⟩⟩⟩
  have hrel : SettingsRel o1 o2 (settingsOf f1) (settingsOf f2) :=
    settingsRun_rel hfrel .seekTime List.Forall₂.nil
  -- the power scan cannot tell the two files apart
  have hbody : ∀ sid : Tas.Line, powerRun sid f1 = powerRun sid f2 := by
    intro sid
    unfold powerRun powerScan
    refine scanFirst_congr ?_ _ _
    refine List.rel_append (List.forall₂_same.mpr fun x _ => ⟨rfl, rfl, rfl⟩)
      (List.Forall₂.cons ?_ (List.forall₂_same.mpr fun x _ => ⟨rfl, rfl, rfl⟩))
    obtain ⟨i1a, i2a⟩ := powerSettingLine_scan_inert sid v o1 p2
    obtain ⟨i1b, i2b⟩ := powerSettingLine_scan_inert sid v o2 p2
    refine ⟨?_, ?_, i2a.trans i2b.symm⟩
    · rw [i1a, i1b]
    · show powerAnnOk sid L1 = powerAnnOk sid L2
      unfold powerAnnOk
      rw [i1a, i1b]
  -- assemble the pipelines
  rcases lookup_rel (str "power") hrel with ⟨h1, h2⟩ | ⟨x, y, h1, h2, hxy⟩
  · unfold powerPipeline channelOf
    rw [h1, h2]
    rfl
  · rcases hxy with rfl | ⟨w, q, rfl, rfl⟩
    · -- identical settings values: only the scanned file differs
      have hchan : channelOf f1 (str "power") = channelOf f2 (str "power") := by
        unfold channelOf
        rw [h1, h2]
      unfold powerPipeline
      rw [hchan]
      cases hc : channelOf f2 (str "power") with
      | none => rfl
      | some so =>
        cases so with
        | mk sid oS =>
          cases hn : parseNat? oS with
          | none => simp [hn]
          | some n => simp [hn, hbody sid]
    · -- the related triples: same id, different offsets, both parse
      cases hsp : splitOnChar '_' w with
      | nil =>
        have hc1 : channelOf f1 (str "power") = none := by
          unfold channelOf; rw [h1]; simp [valIndex, hsp]
        have hc2 : channelOf f2 (str "power") = none := by
          unfold channelOf; rw [h2]; simp [valIndex, hsp]
        unfold powerPipeline
        rw [hc1, hc2]
        rfl
      | cons x0 xrest =>
        cases xrest with
        | nil =>
          have hc1 : channelOf f1 (str "power") = none := by
            unfold channelOf; rw [h1]; simp [valIndex, hsp]
          have hc2 : channelOf f2 (str "power") = none := by
            unfold channelOf; rw [h2]; simp [valIndex, hsp]
          unfold powerPipeline
          rw [hc1, hc2]
          rfl
        | cons x1 xrest2 =>
          cases xrest2 with
          | nil =>
            have hc1 : channelOf f1 (str "power") = some (x1, o1) := by
              unfold channelOf; rw [h1]; simp [valIndex, hsp]
            have hc2 : channelOf f2 (str "power") = some (x1, o2) := by
              unfold channelOf; rw [h2]; simp [valIndex, hsp]
            unfold powerPipeline
            rw [hc1, hc2]
            show (parseNat? o1).map (fun _ => powerRun x1 f1)
                = (parseNat? o2).map (fun _ => powerRun x1 f2)
            rw [show parseNat? o1 = some (ofDigits o1) from by
                unfold parseNat?; rw [if_pos ⟨ho1n, ho1d⟩],
              show parseNat? o2 = some (ofDigits o2) from by
                unfold parseNat?; rw [if_pos ⟨ho2n, ho2d⟩]]
            show some (powerRun x1 f1) = some (powerRun x1 f2)
            rw [hbody x1]
          | cons x2 xrest3 =>
            have hc1 : channelOf f1 (str "power") = none := by
              unfold channelOf; rw [h1]; simp [valIndex, hsp]
            have hc2 : channelOf f2 (str "power") = none := by
              unfold channelOf; rw [h2]; simp [valIndex, hsp]
            unfold powerPipeline
            rw [hc1, hc2]
            rfl

/-- C10, witness: two concrete files identical except for the POWER offset
(512 versus 7) yield the same power pipeline result. -/
theorem C10_witness :
    powerPipeline (exHdrPre ++ powerSettingLine (str "PWR_88") (str "512") (str "0")
        :: [str "###", exPAnn, exPVal])
      = powerPipeline (exHdrPre ++ powerSettingLine (str "PWR_88") (str "7") (str "0")
        :: [str "###", exPAnn, exPVal]) := by
  exact C10_offset_no_effect exHdrPre [str "###", exPAnn, exPVal]
    (str "PWR_88") (str "0") (str "512") (str "7")
    (by decide) (by decide) (by decide) (by decide)
    (by decide) (by decide) (by decide) (by decide)

unseal Rat.mul Rat.inv Rat.add Rat.sub in
/-- C9, witness: the merged output of a concrete file with one speed and
one power record sharing a timestamp is sorted, and the tie keeps its
original speed-before-power order. -/
theorem C9_witness :
    List.Sorted tsLE [MainRecord.speed exRecA, MainRecord.power exPRec] ∧
    ([MainRecord.speed exRecA, MainRecord.power exPRec].filter
        (fun r => decide (r.timestamp = 19 / 2)))
      = [MainRecord.speed exRecA, MainRecord.power exPRec].filter
          (fun r => decide (r.timestamp = 19 / 2)) := by
  refine ⟨(C9_merged_sorted_stable exMainFile
      [MainRecord.speed exRecA, MainRecord.power exPRec]
      [MainRecord.speed exRecA, MainRecord.power exPRec]
      (by decide) (by decide)).1,
    (C9_merged_sorted_stable exMainFile
      [MainRecord.speed exRecA, MainRecord.power exPRec]
      [MainRecord.speed exRecA, MainRecord.power exPRec]
      (by decide) (by decide)).2 (19 / 2)⟩

end Tas
